import Mathlib

/-!
Shallow embedding of the RL-Blackjack engine (src/deck.py, src/blackjack_deck.py,
src/hand.py, src/player.py, src/dealer.py, src/game.py) and verification of the
frozen claims about it.

Machine conventions: Python ints/floats that hold card totals are modelled as
Nat; money amounts (Python float, only ever added/subtracted/doubled here) are
modelled as Rat.  Python exceptions are modelled with Except String.
-/

/-- The `blackjack_value` field of a `Card` (src/deck.py): either an int,
the ace list `[1, 11]`, or `None` for a card whose value was never assigned. -/
inductive BJVal where
  | intVal (n : Nat)
  | aceList
  | noneVal
  deriving DecidableEq

/-- `Card` dataclass (src/deck.py): suit, face value, optional blackjack value. -/
structure Card where
  suit : String
  value : String
  blackjack_value : BJVal
  deriving DecidableEq

/-- `BlackjackDeck.blackjack_value` (src/blackjack_deck.py): value assignment
for a drawn card; invalid ranks raise `ValueError`. -/
def blackjack_value (c : Card) : Except String BJVal :=
  if c.value ∈ ["2", "3", "4", "5", "6", "7", "8", "9", "10"] then
    Except.ok (BJVal.intVal (c.value.toNat?.getD 0))
  else if c.value ∈ ["Jack", "Queen", "King"] then
    Except.ok (BJVal.intVal 10)
  else if c.value = "Ace" then
    Except.ok BJVal.aceList
  else
    Except.error "Invalid card value"

/-- One card's contribution to the running low total in
`Hand.calc_hand_value` (src/hand.py): an ace contributes `value[0] = 1`,
a `None` value contributes 0, any int contributes itself. -/
def lowContrib (v : BJVal) : Nat :=
  match v with
  | BJVal.intVal n => n
  | BJVal.aceList => 1
  | BJVal.noneVal => 0

/-- The `low_total` accumulator of `Hand.calc_hand_value`: sum of all cards
with every ace counted as 1. -/
def low_total (cards : List Card) : Nat :=
  (cards.map (fun c => lowContrib c.blackjack_value)).sum

/-- The `n_aces` counter of `Hand.calc_hand_value`: number of cards whose
blackjack value is the ace list. -/
def n_aces (cards : List Card) : Nat :=
  (cards.filter (fun c => c.blackjack_value = BJVal.aceList)).length

/-- `Hand.calc_hand_value` (src/hand.py): with aces present the stored value
list is `[low_total, low_total + 10 * n_aces]`, otherwise `[low_total]`. -/
def calc_hand_value (cards : List Card) : List Nat :=
  if n_aces cards ≠ 0 then
    [low_total cards, low_total cards + 10 * n_aces cards]
  else
    [low_total cards]

/-- `Hand.get_hand_value` (src/hand.py): recomputes and returns the value list. -/
def get_hand_value (cards : List Card) : List Nat :=
  calc_hand_value cards

/-- Python `max` over a (nonempty) list of naturals, as used by
`Dealer.should_hit` and `get_best_hand_value`. -/
def maxList (l : List Nat) : Nat :=
  match l with
  | [] => 0
  | x :: xs => xs.foldl max x

/-- Python `min` over a (nonempty) list of naturals, as used by
`get_best_hand_value`. -/
def minList (l : List Nat) : Nat :=
  match l with
  | [] => 0
  | x :: xs => xs.foldl min x

/-- `Dealer.is_bust` (src/dealer.py): all possible hand values exceed 21. -/
def dealer_is_bust (cards : List Card) : Bool :=
  (get_hand_value cards).all (fun v => decide (21 < v))

/-- `Dealer._check_for_blackjack` (src/dealer.py): exactly two cards, all with
assigned blackjack values, and 21 among the hand values. -/
def has_blackjack (cards : List Card) : Bool :=
  if cards.length = 2 then
    if cards.all (fun c => decide (c.blackjack_value ≠ BJVal.noneVal)) then
      decide (21 ∈ get_hand_value cards)
    else false
  else false

/-- `Dealer.should_hit` (src/dealer.py): never hit on bust or blackjack, hit
on soft 17, otherwise hit exactly when the maximum total is below 17. -/
def should_hit (cards : List Card) : Bool :=
  if dealer_is_bust cards then false
  else if has_blackjack cards then false
  else
    let hand_values := get_hand_value cards
    if 17 ∈ hand_values ∧ hand_values.length > 1 then true
    else decide (maxList hand_values < 17)

/-- Decision procedure exactly as the C2 claim words it (blackjack taken as
"21 with exactly two cards", with no condition on value assignment):
false on bust, false on blackjack, true on soft 17, true when the maximum
total is below 17, false otherwise. -/
def claimShouldHit (cards : List Card) : Bool :=
  let ts := get_hand_value cards
  if ts.all (fun v => decide (21 < v)) then false
  else if decide (21 ∈ ts) && decide (cards.length = 2) then false
  else if decide (17 ∈ ts) && decide (ts.length > 1) then true
  else decide (maxList ts < 17)

/- Concrete cards, with the values `BlackjackDeck.blackjack_value` assigns. -/

/-- An ace of hearts as drawn through the blackjack deck. -/
def aceHearts : Card := ⟨"Hearts", "Ace", BJVal.aceList⟩

/-- An ace of spades as drawn through the blackjack deck. -/
def aceSpades : Card := ⟨"Spades", "Ace", BJVal.aceList⟩

/-- A nine of clubs as drawn through the blackjack deck. -/
def nineClubs : Card := ⟨"Clubs", "9", BJVal.intVal 9⟩

/-- A six of clubs as drawn through the blackjack deck. -/
def sixClubs : Card := ⟨"Clubs", "6", BJVal.intVal 6⟩

/-- A ten of diamonds as drawn through the blackjack deck. -/
def tenDiamonds : Card := ⟨"Diamonds", "10", BJVal.intVal 10⟩

/-- A seven of spades as drawn through the blackjack deck. -/
def sevenSpades : Card := ⟨"Spades", "7", BJVal.intVal 7⟩

/-- An eight of hearts as drawn through the blackjack deck. -/
def eightHearts : Card := ⟨"Hearts", "8", BJVal.intVal 8⟩

/-- A five of spades as drawn through the blackjack deck. -/
def fiveSpades : Card := ⟨"Spades", "5", BJVal.intVal 5⟩

/-- `Game.get_best_hand_value` (src/game.py) and the identical
`Dealer.get_best_hand_value` (src/dealer.py): the largest value not
exceeding 21 when one exists, otherwise the smallest value. -/
def get_best_hand_value (hand_values : List Nat) : Nat :=
  let valid_values := hand_values.filter (fun v => decide (v ≤ 21))
  if valid_values ≠ [] then maxList valid_values
  else minList hand_values

/-- `Game.determine_winner` (src/game.py), with the player's `is_bust` flag
and both card lists made explicit.  Returns the literal outcome strings of
the source. -/
def determine_winner (p_is_bust : Bool) (p_cards d_cards : List Card) : String :=
  if p_is_bust then "bust"
  else
    let player_best := get_best_hand_value (get_hand_value p_cards)
    let dealer_best := get_best_hand_value (get_hand_value d_cards)
    if dealer_is_bust d_cards then "win"
    else if player_best > dealer_best then "win"
    else if player_best = dealer_best then "push"
    else "lose"

/-- The money-and-flags part of a `Player` (src/player.py). -/
structure PState where
  money_pool : Rat
  bankrupt : Bool
  is_bust : Bool
  deriving DecidableEq

/-- `Player.check_bankruptcy` (src/player.py): the flag is recomputed on every
call, set when `money_pool ≤ 0` and cleared otherwise. -/
def check_bankruptcy (s : PState) : PState :=
  if s.money_pool ≤ 0 then { s with bankrupt := true }
  else { s with bankrupt := false }

/-- `Player.bet_to_pot` (src/player.py): run the bankruptcy check, clamp the
bet to the whole bankroll (all-in) when it is at least the bankroll and the
player is not bankrupt, then debit.  Returns the actual bet and the new state. -/
def bet_to_pot (s : PState) (bet : Rat) : Rat × PState :=
  let s1 := check_bankruptcy s
  let bet1 := if bet ≥ s1.money_pool ∧ s1.bankrupt = false then s1.money_pool else bet
  (bet1, { s1 with money_pool := s1.money_pool - bet1 })

/-- The automatic-fold test of `Game.get_player_bet` (src/game.py): the
player is folded without being asked exactly when
`min(max_bet, money_pool) < min_bet`. -/
def bet_auto_fold (min_bet max_bet money : Rat) : Bool :=
  decide (min max_bet money < min_bet)

/-- The per-player body of `Game.payout_winnings` (src/game.py): players with
no recorded bet are skipped; otherwise `win` credits `bet * 2`, `push`
credits `bet`, anything else credits nothing, and `check_bankruptcy` runs
after the credit. -/
def payout_step (s : PState) (bet : Option Rat) (result : String) : PState :=
  match bet with
  | none => s
  | some b =>
      let credit := if result = "win" then b * 2 else if result = "push" then b else 0
      check_bankruptcy { s with money_pool := s.money_pool + credit }

/-- The per-player effect of `Game.reset_round` (src/game.py) on money and
flags: non-bankrupt players get `is_bust` cleared, bankrupt players are left
alone; bankrolls are untouched. -/
def reset_step (s : PState) : PState :=
  if s.bankrupt then s else { s with is_bust := false }

/-- The per-player betting phase (`Game.handle_betting_round` together with
`Game.get_player_bet`, src/game.py): a bankrupt player is skipped; an active
player either ends with bet amount 0 (the automatic fold or a chosen 0) and is
marked out of the round, or places a validated amount
`min_bet ≤ amt ≤ min(max_bet, money_pool)` through `bet_to_pot`, which is
recorded for the payout. -/
inductive BetStep (min_bet max_bet : Rat) : PState → PState × Option Rat → Prop where
  | skip (s : PState) : s.bankrupt = true → BetStep min_bet max_bet s (s, none)
  | fold (s : PState) : s.bankrupt = false →
      BetStep min_bet max_bet s ({ s with is_bust := true }, none)
  | place (s : PState) (amt : Rat) : s.bankrupt = false →
      min_bet ≤ amt → amt ≤ min max_bet s.money_pool →
      BetStep min_bet max_bet s ((bet_to_pot s amt).2, some (bet_to_pot s amt).1)

/-- The player-turn phase of the round loop (src/game.py): hitting and
standing only ever touch the hand and the `is_bust` flag, never the bankroll
or the `bankrupt` flag. -/
inductive PlayStep : PState → PState → Prop where
  | stand (s : PState) : PlayStep s s
  | goBust (s : PState) : PlayStep s { s with is_bust := true }

/-- One whole engine round for one player (`Game.launch_game`, src/game.py):
betting, play, payout against some outcome string, then the round reset. -/
def Round (min_bet max_bet : Rat) (s s' : PState) : Prop :=
  ∃ s1 bet s2 result, BetStep min_bet max_bet s (s1, bet) ∧ PlayStep s1 s2 ∧
    s' = reset_step (payout_step s2 bet result)

/-- `Deck.draw_card` (src/deck.py): raises when the deck is empty, otherwise
returns the first `num_cards` cards (Python slice semantics: fewer when fewer
remain) and the remaining deck. -/
def draw_card (deck : List Card) (num_cards : Nat) :
    Except String (List Card × List Card) :=
  if deck = [] then Except.error "No more cards in the deck."
  else Except.ok (deck.take num_cards, deck.drop num_cards)

/-- One seat of the table: the player's flags together with their hand
(src/game.py keeps these on the `Player` objects). -/
structure Seat where
  bankrupt : Bool
  is_bust : Bool
  hand : List Card
  deriving DecidableEq

/-- The card-holding zones of a `Game` (src/game.py): the shoe, the discard
pile, every player hand and the dealer hand. -/
structure GState where
  shoe : List Card
  discard_pile : List Card
  players : List Seat
  dealer_hand : List Card
  deriving DecidableEq

/-- The player loop of `Game.reset_round` (src/game.py): each non-bankrupt
player in order has `is_bust` cleared and the old hand replaced by two cards
freshly drawn from the shoe; the old hand's cards are not moved anywhere. -/
def reset_players (shoe : List Card) :
    List Seat → Except String (List Card × List Seat)
  | [] => Except.ok (shoe, [])
  | p :: ps =>
      if p.bankrupt then do
        let (shoe1, ps1) ← reset_players shoe ps
        Except.ok (shoe1, p :: ps1)
      else do
        let (drawn, shoe1) ← draw_card shoe 2
        let (shoe2, ps1) ← reset_players shoe1 ps
        Except.ok (shoe2, { p with is_bust := false, hand := drawn } :: ps1)

/-- `Game.reset_round` (src/game.py): redeal every non-bankrupt player, then
replace the dealer with a fresh two-card hand; the discard pile is untouched
and the previous hands are simply dropped. -/
def reset_round (g : GState) : Except String GState := do
  let (shoe1, players1) ← reset_players g.shoe g.players
  let (dealer1, shoe2) ← draw_card shoe1 2
  Except.ok { shoe := shoe2, discard_pile := g.discard_pile,
              players := players1, dealer_hand := dealer1 }

/-- Total number of cards across all zones: shoe, discard pile, every player
hand and the dealer hand. -/
def total_cards (g : GState) : Nat :=
  g.shoe.length + g.discard_pile.length +
    (g.players.map (fun p => p.hand.length)).sum + g.dealer_hand.length

/-- `total_cards` after a successful `reset_round`, for concrete evaluation. -/
def total_cards_after_reset (g : GState) : Option Nat :=
  match reset_round g with
  | Except.ok g1 => some (total_cards g1)
  | Except.error _ => none

/-- Concrete shoe of eight cards used to exhibit the round-reset card loss. -/
def demoShoe : List Card :=
  [aceHearts, aceSpades, nineClubs, sixClubs,
   tenDiamonds, sevenSpades, eightHearts, fiveSpades]

/-- A six-deck table mid-session: 8 cards left in the shoe, 300 in the
discard pile, one active player holding two cards, dealer holding two —
312 = 6 * 52 cards in total. -/
def demoGame : GState :=
  { shoe := demoShoe
    discard_pile := List.replicate 300 tenDiamonds
    players := [⟨false, false, [tenDiamonds, nineClubs]⟩]
    dealer_hand := [sevenSpades, eightHearts] }

/- Helper lemmas about Python max/min over nonempty lists. -/

theorem foldl_max_init (l : List Nat) (a : Nat) : a ≤ l.foldl max a := by
  induction l generalizing a with
  | nil => exact Nat.le_refl a
  | cons x xs ih =>
      exact Nat.le_trans (Nat.le_max_left a x) (ih (max a x))

theorem foldl_max_of_mem :
    ∀ (l : List Nat) (a x : Nat), x ∈ l → x ≤ l.foldl max a
  | [], _, _, hx => absurd hx (List.not_mem_nil _)
  | y :: ys, a, x, hx => by
      rcases List.mem_cons.mp hx with h | h
      · subst h
        exact Nat.le_trans (Nat.le_max_right a x) (foldl_max_init ys (max a x))
      · exact foldl_max_of_mem ys (max a y) x h

theorem foldl_max_mem :
    ∀ (l : List Nat) (a : Nat), l.foldl max a ∈ a :: l
  | [], a => by simp
  | y :: ys, a => by
      rw [List.foldl_cons]
      have h := foldl_max_mem ys (max a y)
      rcases List.mem_cons.mp h with h1 | h1
      · rw [h1]
        rcases max_choice a y with hm | hm <;> rw [hm]
        · exact List.mem_cons_self _ _
        · exact List.mem_cons_of_mem _ (List.mem_cons_self _ _)
      · exact List.mem_cons_of_mem _ (List.mem_cons_of_mem _ h1)

theorem foldl_min_init (l : List Nat) (a : Nat) : l.foldl min a ≤ a := by
  induction l generalizing a with
  | nil => exact Nat.le_refl a
  | cons x xs ih =>
      exact Nat.le_trans (ih (min a x)) (Nat.min_le_left a x)

theorem foldl_min_of_mem :
    ∀ (l : List Nat) (a x : Nat), x ∈ l → l.foldl min a ≤ x
  | [], _, _, hx => absurd hx (List.not_mem_nil _)
  | y :: ys, a, x, hx => by
      rcases List.mem_cons.mp hx with h | h
      · subst h
        exact Nat.le_trans (foldl_min_init ys (min a x)) (Nat.min_le_right a x)
      · exact foldl_min_of_mem ys (min a y) x h

theorem foldl_min_mem :
    ∀ (l : List Nat) (a : Nat), l.foldl min a ∈ a :: l
  | [], a => by simp
  | y :: ys, a => by
      rw [List.foldl_cons]
      have h := foldl_min_mem ys (min a y)
      rcases List.mem_cons.mp h with h1 | h1
      · rw [h1]
        rcases min_choice a y with hm | hm <;> rw [hm]
        · exact List.mem_cons_self _ _
        · exact List.mem_cons_of_mem _ (List.mem_cons_self _ _)
      · exact List.mem_cons_of_mem _ (List.mem_cons_of_mem _ h1)

theorem maxList_mem {l : List Nat} (h : l ≠ []) : maxList l ∈ l := by
  match l with
  | [] => exact absurd rfl h
  | x :: xs => exact foldl_max_mem xs x

theorem le_maxList {l : List Nat} {x : Nat} (hx : x ∈ l) : x ≤ maxList l := by
  match l with
  | [] => exact absurd hx (List.not_mem_nil _)
  | y :: ys =>
      rcases List.mem_cons.mp hx with h | h
      · subst h
        exact foldl_max_init ys x
      · exact foldl_max_of_mem ys y x h

theorem minList_mem {l : List Nat} (h : l ≠ []) : minList l ∈ l := by
  match l with
  | [] => exact absurd rfl h
  | x :: xs => exact foldl_min_mem xs x

theorem minList_le {l : List Nat} {x : Nat} (hx : x ∈ l) : minList l ≤ x := by
  match l with
  | [] => exact absurd hx (List.not_mem_nil _)
  | y :: ys =>
      rcases List.mem_cons.mp hx with h | h
      · subst h
        exact foldl_min_init ys x
      · exact foldl_min_of_mem ys y x h

/-- The bankruptcy check never touches the bankroll. -/
theorem check_bankruptcy_money (s : PState) :
    (check_bankruptcy s).money_pool = s.money_pool := by
  unfold check_bankruptcy
  split <;> rfl

/-- C1: the claim (and the source's own docstring and comments) say a hand
with aces has totals exactly {low, low + 10}, promoting a single ace;
`Hand.calc_hand_value` instead computes `low + 10 * n_aces`, so the hand
Ace, Ace, 9 yields [11, 31] where the documented answer is [11, 21]. -/
theorem C1_two_ace_hand_value_bug :
    calc_hand_value [aceHearts, aceSpades, nineClubs] = [11, 31] ∧
    calc_hand_value [aceHearts, aceSpades, nineClubs] ≠ [11, 21] := by
  constructor <;> decide

/-- C4: `payout_winnings` credits exactly `2b` on "win", exactly `b` on
"push", and nothing on "lose" or "bust"; a $20 winning bet credits $40. -/
theorem C4_payout_table :
    (∀ (s : PState) (b : Rat),
      (payout_step s (some b) "win").money_pool = s.money_pool + 2 * b ∧
      (payout_step s (some b) "push").money_pool = s.money_pool + b ∧
      (payout_step s (some b) "lose").money_pool = s.money_pool + 0 ∧
      (payout_step s (some b) "bust").money_pool = s.money_pool + 0) ∧
    (payout_step ⟨100, false, false⟩ (some 20) "win").money_pool = 140 := by
  constructor
  · intro s b
    refine ⟨?_, by simp [payout_step, check_bankruptcy_money],
      by simp [payout_step, check_bankruptcy_money],
      by simp [payout_step, check_bankruptcy_money]⟩
    simp [payout_step, check_bankruptcy_money]
    ring
  · norm_num [payout_step, check_bankruptcy]

/-- C5 counterexample: with a single card left in the shoe, a draw of two
cards does not fail — `Deck.draw_card` only raises on an empty deck — so the
claim that a draw fails whenever fewer than `n` cards remain is false. -/
theorem C5_draw_short_deck_succeeds :
    draw_card [tenDiamonds] 2 = Except.ok ([tenDiamonds], []) := by
  rfl

/-- C5 amended: `draw_card` fails with the empty-shoe error exactly when the
shoe is empty; otherwise it succeeds, removing the first `min(n, remaining)`
cards in order from the top — exactly `n` of them whenever `n` many remain. -/
theorem C5_draw_card_amended :
    ∀ (deck : List Card) (n : Nat),
      (deck = [] → draw_card deck n = Except.error "No more cards in the deck.") ∧
      (deck ≠ [] →
        draw_card deck n = Except.ok (deck.take n, deck.drop n) ∧
        (deck.take n).length = min n deck.length ∧
        deck.take n ++ deck.drop n = deck ∧
        (n ≤ deck.length → (deck.take n).length = n)) := by
  intro deck n
  constructor
  · intro h
    simp [draw_card, h]
  · intro h
    refine ⟨by simp [draw_card, h], by simp [List.length_take], by simp, ?_⟩
    intro hn
    simp [List.length_take, Nat.min_eq_left hn]

/-- Witness for C5: drawing one card from a two-card shoe succeeds and
removes the top card. -/
theorem C5_draw_card_amended_witness :
    ([tenDiamonds, nineClubs] ≠ ([] : List Card)) ∧
    draw_card [tenDiamonds, nineClubs] 1 = Except.ok ([tenDiamonds], [nineClubs]) :=
  ⟨by decide, ((C5_draw_card_amended [tenDiamonds, nineClubs] 1).2 (by decide)).1⟩

set_option maxRecDepth 4000 in
/-- C6: the conservation invariant |shoe| + |discard| + Σ|hands| = 52 * numDecks
is broken by `Game.reset_round`, which deals fresh hands without moving the
old hand cards to the discard pile (its own docstring says "Previous hands
are discarded"): a 312-card six-deck table drops to 308 cards after one reset. -/
theorem C6_reset_round_loses_cards :
    total_cards demoGame = 312 ∧
    total_cards_after_reset demoGame = some 308 ∧ (308 : Nat) ≠ 312 := by
  have h : reset_round demoGame = Except.ok
      { shoe := [tenDiamonds, sevenSpades, eightHearts, fiveSpades]
        discard_pile := List.replicate 300 tenDiamonds
        players := [⟨false, false, [aceHearts, aceSpades]⟩]
        dealer_hand := [nineClubs, sixClubs] } := by
    rfl
  refine ⟨?_, ?_, by decide⟩
  · simp [total_cards, demoGame, demoShoe, List.length_replicate]
  · simp [total_cards_after_reset, h, total_cards, List.length_replicate]

/-- C10: for a player whose bankroll is already ≤ 0, the bankruptcy check
inside `bet_to_pot` marks them bankrupt, so the all-in clamp is skipped: the
full requested bet is debited, driving the bankroll strictly further
negative, and is returned unchanged. -/
theorem C10_bankrupt_bet_unclamped :
    ∀ (s : PState) (b : Rat), s.money_pool ≤ 0 → 0 < b →
      (bet_to_pot s b).1 = b ∧
      (bet_to_pot s b).2.money_pool = s.money_pool - b ∧
      (bet_to_pot s b).2.money_pool < s.money_pool ∧
      (bet_to_pot s b).2.money_pool < 0 ∧
      (bet_to_pot s b).2.bankrupt = true := by
  intro s b hm hb
  have hbk : (check_bankruptcy s).bankrupt = true := by
    simp [check_bankruptcy, if_pos hm]
  simp only [bet_to_pot, check_bankruptcy_money, hbk, Bool.true_eq_false,
    and_false, if_false]
  exact ⟨trivial, trivial, by linarith, by linarith, trivial⟩

/-- Witness for C10: a player at exactly $0 asked to bet $5 is debited the
full $5, ending at -$5 and flagged bankrupt. -/
theorem C10_bankrupt_bet_unclamped_witness :
    ((0 : Rat) ≤ 0) ∧ (0 : Rat) < 5 ∧
    (bet_to_pot ⟨0, false, false⟩ 5).1 = 5 ∧
    (bet_to_pot ⟨0, false, false⟩ 5).2.money_pool = 0 - 5 := by
  have h := C10_bankrupt_bet_unclamped ⟨0, false, false⟩ 5 (by norm_num) (by norm_num)
  exact ⟨le_refl 0, by norm_num, h.1, h.2.1⟩

/-- C3: `determine_winner` returns "bust" for a busted player regardless of
the dealer's hand; otherwise "win" on a dealer bust, and otherwise compares
best totals: strictly greater wins, equal pushes, strictly less loses. -/
theorem C3_determine_winner_cases :
    ∀ (p_cards d_cards : List Card),
      determine_winner true p_cards d_cards = "bust" ∧
      (dealer_is_bust d_cards = true →
        determine_winner false p_cards d_cards = "win") ∧
      (dealer_is_bust d_cards = false →
        (get_best_hand_value (get_hand_value p_cards) >
            get_best_hand_value (get_hand_value d_cards) →
          determine_winner false p_cards d_cards = "win") ∧
        (get_best_hand_value (get_hand_value p_cards) =
            get_best_hand_value (get_hand_value d_cards) →
          determine_winner false p_cards d_cards = "push") ∧
        (get_best_hand_value (get_hand_value p_cards) <
            get_best_hand_value (get_hand_value d_cards) →
          determine_winner false p_cards d_cards = "lose")) := by
  intro p_cards d_cards
  refine ⟨by simp [determine_winner], fun hd => by simp [determine_winner, hd], ?_⟩
  intro hd
  refine ⟨fun hgt => by simp [determine_winner, hd, hgt], ?_, ?_⟩
  · intro heq
    simp [determine_winner, hd, heq]
  · intro hlt
    simp only [determine_winner, Bool.false_eq_true, if_false, hd]
    rw [if_neg (by omega), if_neg (by omega)]

/-- Witness for C3: a 19-point player against a dealer whose only total is
23 (bust) wins. -/
theorem C3_determine_winner_cases_witness :
    dealer_is_bust [tenDiamonds, eightHearts, fiveSpades] = true ∧
    determine_winner false [tenDiamonds, nineClubs]
      [tenDiamonds, eightHearts, fiveSpades] = "win" :=
  ⟨by decide,
   (C3_determine_winner_cases [tenDiamonds, nineClubs]
      [tenDiamonds, eightHearts, fiveSpades]).2.1 (by decide)⟩

/-- When some value is at most 21, `get_best_hand_value` is the largest such
value and itself at most 21. -/
theorem gbv_of_exists_le (vals : List Nat) (w : Nat) (hw : w ∈ vals)
    (hw21 : w ≤ 21) :
    get_best_hand_value vals ∈ vals ∧ get_best_hand_value vals ≤ 21 ∧
    ∀ t ∈ vals, t ≤ 21 → t ≤ get_best_hand_value vals := by
  have hwv : w ∈ vals.filter (fun v => decide (v ≤ 21)) :=
    List.mem_filter.mpr ⟨hw, by simpa⟩
  have hne : vals.filter (fun v => decide (v ≤ 21)) ≠ [] :=
    List.ne_nil_of_mem hwv
  have hgbv : get_best_hand_value vals =
      maxList (vals.filter (fun v => decide (v ≤ 21))) := by
    simp [get_best_hand_value, hne]
  have hmem := maxList_mem hne
  refine ⟨?_, ?_, ?_⟩
  · rw [hgbv]
    exact List.mem_of_mem_filter hmem
  · rw [hgbv]
    simpa using List.of_mem_filter hmem
  · intro t ht ht21
    rw [hgbv]
    exact le_maxList (List.mem_filter.mpr ⟨ht, by simpa⟩)

/-- When every value exceeds 21, `get_best_hand_value` is the least value. -/
theorem gbv_of_all_gt (vals : List Nat) (hne : vals ≠ [])
    (h : ∀ t ∈ vals, 21 < t) :
    get_best_hand_value vals ∈ vals ∧
    ∀ t ∈ vals, get_best_hand_value vals ≤ t := by
  have hfil : vals.filter (fun v => decide (v ≤ 21)) = [] := by
    rw [List.filter_eq_nil_iff]
    intro a ha
    have := h a ha
    simp
    omega
  have hgbv : get_best_hand_value vals = minList vals := by
    simp [get_best_hand_value, hfil]
  rw [hgbv]
  exact ⟨minList_mem hne, fun t ht => minList_le ht⟩

/-- The value list of a hand is never empty. -/
theorem get_hand_value_ne_nil (cards : List Card) :
    get_hand_value cards ≠ [] := by
  unfold get_hand_value calc_hand_value
  split <;> simp

/-- C9: `get_best_hand_value` returns the maximum total that is ≤ 21 whenever
any total is ≤ 21, and otherwise the minimum of the totals. -/
theorem C9_best_hand_value :
    ∀ (cards : List Card),
      ((∃ t ∈ get_hand_value cards, t ≤ 21) →
        get_best_hand_value (get_hand_value cards) ∈ get_hand_value cards ∧
        get_best_hand_value (get_hand_value cards) ≤ 21 ∧
        ∀ t ∈ get_hand_value cards, t ≤ 21 →
          t ≤ get_best_hand_value (get_hand_value cards)) ∧
      ((∀ t ∈ get_hand_value cards, 21 < t) →
        get_best_hand_value (get_hand_value cards) ∈ get_hand_value cards ∧
        ∀ t ∈ get_hand_value cards,
          get_best_hand_value (get_hand_value cards) ≤ t) := by
  intro cards
  constructor
  · rintro ⟨w, hw, hw21⟩
    exact gbv_of_exists_le _ w hw hw21
  · intro h
    exact gbv_of_all_gt _ (get_hand_value_ne_nil cards) h

/-- Witness for C9: the soft hand Ace + 6 has totals [7, 17] and best value
17, the largest total not exceeding 21. -/
theorem C9_best_hand_value_witness :
    (∃ t ∈ get_hand_value [aceHearts, sixClubs], t ≤ 21) ∧
    (get_best_hand_value (get_hand_value [aceHearts, sixClubs]) ∈
        get_hand_value [aceHearts, sixClubs] ∧
      get_best_hand_value (get_hand_value [aceHearts, sixClubs]) ≤ 21 ∧
      ∀ t ∈ get_hand_value [aceHearts, sixClubs], t ≤ 21 →
        t ≤ get_best_hand_value (get_hand_value [aceHearts, sixClubs])) :=
  ⟨by decide, (C9_best_hand_value [aceHearts, sixClubs]).1 (by decide)⟩

/-- `payout_winnings` skips a player with no recorded bet. -/
theorem payout_step_none (s : PState) (result : String) :
    payout_step s none result = s := rfl

/-- A player who starts a round flagged bankrupt is skipped at betting,
records no bet, receives no payout, and is left alone by the reset: the flag
survives the round. -/
theorem Round_bankrupt_sticky {min_bet max_bet : Rat} {s s' : PState}
    (h : Round min_bet max_bet s s') (hb : s.bankrupt = true) :
    s'.bankrupt = true := by
  obtain ⟨s1, bet, s2, result, hbet, hplay, hs'⟩ := h
  cases hbet with
  | skip h1 =>
      subst hs'
      have h2 : s2.bankrupt = true := by
        cases hplay with
        | stand => exact hb
        | goBust => exact hb
      rw [payout_step_none]
      unfold reset_step
      split
      · exact h2
      · next hnb => exact absurd h2 hnb
  | fold h1 =>
      rw [hb] at h1
      exact absurd h1 (by simp)
  | place amt h1 h2 h3 =>
      rw [hb] at h1
      exact absurd h1 (by simp)

/-- C7: `check_bankruptcy` sets the flag exactly when the bankroll is ≤ 0,
and across any number of engine rounds (betting, play, payout, reset) an
already-set bankrupt flag is never cleared: the betting phase skips bankrupt
players, so no bet is recorded, no payout credit arrives, and no bankruptcy
check ever runs for them again. -/
theorem C7_bankruptcy_sticky :
    ∀ (min_bet max_bet : Rat) (s t t' : PState),
      ((check_bankruptcy s).bankrupt = true ↔ s.money_pool ≤ 0) ∧
      (Relation.ReflTransGen (Round min_bet max_bet) t t' →
        t.bankrupt = true → t'.bankrupt = true) := by
  intro min_bet max_bet s t t'
  constructor
  · by_cases h : s.money_pool ≤ 0 <;> simp [check_bankruptcy, h]
  · intro hrt hb
    induction hrt with
    | refl => exact hb
    | tail hab hbc ih => exact Round_bankrupt_sticky hbc ih

/-- Witness for C7: a player at -$5 is flagged by the check, and a player
flagged bankrupt at $0 is still flagged after a full engine round. -/
theorem C7_bankruptcy_sticky_witness :
    ((check_bankruptcy ⟨-5, false, false⟩).bankrupt = true ↔ ((-5 : Rat) ≤ 0)) ∧
    (⟨0, true, true⟩ : PState).bankrupt = true := by
  have h := C7_bankruptcy_sticky 10 100 ⟨-5, false, false⟩ ⟨0, true, true⟩ ⟨0, true, true⟩
  refine ⟨h.1, ?_⟩
  refine h.2 (Relation.ReflTransGen.single ?_) rfl
  exact ⟨⟨0, true, true⟩, none, ⟨0, true, true⟩, "lose",
    BetStep.skip _ rfl, PlayStep.stand _, by rfl⟩

/-- C8: for a player with positive bankroll the amount actually charged by
`bet_to_pot` never exceeds the bankroll, a request of at least the bankroll
is an all-in charging exactly the bankroll and leaving $0, and the automatic
fold of `get_player_bet` fires exactly when the bankroll is below the table
minimum (with the table configured so that the minimum is at most the
maximum, as the engine's $10/$100 limits are). -/
theorem C8_bet_clamp_and_fold :
    ∀ (s : PState) (bet min_bet max_bet : Rat),
      (0 < s.money_pool →
        (bet_to_pot s bet).1 ≤ s.money_pool ∧
        (bet ≥ s.money_pool →
          (bet_to_pot s bet).1 = s.money_pool ∧
          (bet_to_pot s bet).2.money_pool = 0)) ∧
      (min_bet ≤ max_bet →
        (bet_auto_fold min_bet max_bet s.money_pool = true ↔
          s.money_pool < min_bet)) := by
  intro s bet min_bet max_bet
  constructor
  · intro hpos
    have hnle : ¬ s.money_pool ≤ 0 := not_le.mpr hpos
    simp only [bet_to_pot, check_bankruptcy, if_neg hnle]
    simp only [and_true, ge_iff_le]
    constructor
    · split
      · exact le_refl _
      · next h => exact le_of_lt (lt_of_not_ge h)
    · intro hge
      rw [if_pos hge]
      exact ⟨rfl, sub_self _⟩
  · intro hmn
    unfold bet_auto_fold
    simp only [decide_eq_true_eq]
    constructor
    · intro h
      rcases min_lt_iff.mp h with h1 | h1
      · linarith
      · exact h1
    · intro h
      exact min_lt_iff.mpr (Or.inr h)

/-- Witness for C8: a $15 player requesting $50 at a $10/$100 table is
charged exactly $15 and left at $0, and is not auto-folded. -/
theorem C8_bet_clamp_and_fold_witness :
    (0 : Rat) < 15 ∧ (50 : Rat) ≥ 15 ∧ (10 : Rat) ≤ 100 ∧
    (bet_to_pot ⟨15, false, false⟩ 50).1 = 15 ∧
    (bet_to_pot ⟨15, false, false⟩ 50).2.money_pool = 0 ∧
    (bet_auto_fold 10 100 15 = true ↔ (15 : Rat) < 10) := by
  have h := C8_bet_clamp_and_fold ⟨15, false, false⟩ 50 10 100
  have h1 := h.1 (by norm_num)
  have h2 := h1.2 (by norm_num)
  exact ⟨by norm_num, by norm_num, by norm_num, h2.1, h2.2, h.2 (by norm_num)⟩

/-- If a two-branch blackjack check deems a hand non-blackjack, the hand can
still total 21; but a hand totalling 21 can never simultaneously show a soft
17 or a maximum below 17, because its value list is `[low]` or
`[low, low + 10 * aces]`. -/
theorem hand_value_21_no_soft17 (cards : List Card)
    (h21 : 21 ∈ get_hand_value cards) :
    17 ∉ get_hand_value cards ∧ ¬ maxList (get_hand_value cards) < 17 := by
  unfold get_hand_value calc_hand_value at h21 ⊢
  by_cases ha : n_aces cards = 0
  · simp only [ha, ne_eq, not_true_eq_false, if_false, List.mem_singleton] at h21 ⊢
    have hm : maxList [low_total cards] = low_total cards := rfl
    constructor
    · omega
    · rw [hm]
      omega
  · simp only [ha, ne_eq, not_false_eq_true, if_true, List.mem_cons,
      List.mem_singleton, List.not_mem_nil, or_false] at h21 ⊢
    have hm : maxList [low_total cards, low_total cards + 10 * n_aces cards] =
        max (low_total cards) (low_total cards + 10 * n_aces cards) := rfl
    have hmax : max (low_total cards) (low_total cards + 10 * n_aces cards) =
        low_total cards + 10 * n_aces cards :=
      Nat.max_eq_right (Nat.le_add_right _ _)
    rw [hm, hmax]
    constructor
    · omega
    · omega

/-- `has_blackjack` implies two cards and 21 among the values. -/
theorem has_blackjack_imp (cards : List Card)
    (hbj : has_blackjack cards = true) :
    cards.length = 2 ∧ 21 ∈ get_hand_value cards := by
  unfold has_blackjack at hbj
  split at hbj
  · split at hbj
    · exact ⟨by assumption, by simpa using hbj⟩
    · exact absurd hbj (by simp)
  · exact absurd hbj (by simp)

/-- C2: `Dealer.should_hit` agrees everywhere with the decision procedure of
the claim — false on bust, false on blackjack (21 with exactly two cards),
true on soft 17, true when the maximum total is below 17, false otherwise —
and in particular hits on {Ace, 6} and stands on {10, 7}. -/
theorem C2_should_hit_spec :
    (∀ cards : List Card, should_hit cards = claimShouldHit cards) ∧
    should_hit [aceHearts, sixClubs] = true ∧
    should_hit [tenDiamonds, sevenSpades] = false := by
  refine ⟨?_, by decide, by decide⟩
  intro cards
  unfold should_hit claimShouldHit dealer_is_bust
  by_cases hbust : (get_hand_value cards).all (fun v => decide (21 < v)) = true
  · simp [hbust]
  · have hb' : (get_hand_value cards).all (fun v => decide (21 < v)) = false :=
      eq_false_of_ne_true hbust
    by_cases hbj : has_blackjack cards = true
    · obtain ⟨hlen, h21⟩ := has_blackjack_imp cards hbj
      simp [hb', hbj, hlen, h21]
    · have hbj' : has_blackjack cards = false := eq_false_of_ne_true hbj
      by_cases hcb : 21 ∈ get_hand_value cards ∧ cards.length = 2
      · have hkey := hand_value_21_no_soft17 cards hcb.1
        simp [hb', hbj', hcb.1, hcb.2, hkey.1, hkey.2]
      · have h1 : (decide (21 ∈ get_hand_value cards) &&
            decide (cards.length = 2)) = false := by
          rw [Bool.and_eq_false_iff]
          by_cases h21 : 21 ∈ get_hand_value cards
          · right
            simp only [decide_eq_false_iff_not]
            intro hlen
            exact hcb ⟨h21, hlen⟩
          · left
            simpa using h21
        simp [hb', hbj', h1]
